import Mathlib

/-!
Verification of the rule aggregation and idempotent publishing pipeline
implemented in src/Build/lib/rules/base.ts.  JavaScript strings are
modelled as lists of characters; a JavaScript value that may be
undefined is modelled with Option.  The external domain trie delegate
(HostnameSmolTrie) is modelled as the ordered log of add calls issued
to it, since the core only drives it through its interface.
-/

/-- JavaScript strings are modelled as lists of characters. -/
abbrev Str := List Char

/-- Converts a Lean string literal into the character-list model. -/
def str (s : String) : Str := s.toList

/-- One iteration of the lockstep comparison loop inside fileEqual
(base.ts lines 399-435).  The checks appear in source order: both lines
empty; exactly one empty; differing first characters; both lines are
"#" comments; both lines are "!" comments; both lines are header
divider lines (a '/' at index 0 and 1 and a '#' at index 3); finally
byte identity. -/
def lineEqual (a b : Str) : Bool :=
  if a.length = 0 ∧ b.length = 0 then true
  else if a.length = 0 ∨ b.length = 0 then false
  else if a.head? ≠ b.head? then false
  else if a.head? = some '#' ∧ b.head? = some '#' then true
  else if a.head? = some '!' ∧ b.head? = some '!' then true
  else if a.head? = some '/' ∧ b.head? = some '/'
      ∧ a[1]? = some '/' ∧ b[1]? = some '/'
      ∧ a[3]? = some '#' ∧ b[3]? = some '#' then true
  else decide (a = b)

/-- The loop of fileEqual (base.ts lines 391-439).  The argument idx is
the JavaScript loop variable index at the moment the current source
line is examined; the base case returns the final
"!(index < linesABound)" check, which holds exactly when the number of
consumed lines reaches the candidate length. -/
def fileEqualGo (linesA : List Str) : Nat → List Str → Bool
  | idx, [] => decide (linesA.length ≤ idx)
  | idx, lineB :: rest =>
    if linesA.length ≤ idx then decide (idx = linesA.length) && lineB.isEmpty
    else lineEqual (linesA.getD idx []) lineB && fileEqualGo linesA (idx + 1) rest

/-- fileEqual (base.ts lines 384-440): compares the freshly generated
candidate lines against the line sequence of the existing file. -/
def fileEqual (linesA : List Str) (source : List Str) : Bool :=
  if linesA.length = 0 then false
  else fileEqualGo linesA 0 source

/-- Index-free restatement of the fileEqual loop, used as a proof
vehicle: it is proved equal to fileEqualGo and makes the structural
inductions straightforward. -/
def fileEqualAux : List Str → List Str → Bool
  | [], [] => true
  | [], lineB :: _ => lineB.isEmpty
  | _ :: _, [] => false
  | lineA :: as, lineB :: bs => lineEqual lineA lineB && fileEqualAux as bs

/-- JavaScript String.prototype.split with separator "," on the
character-list model: splitting never yields an empty list, and an
input without commas yields the singleton of the input. -/
def splitComma : Str → List Str
  | [] => [[]]
  | c :: rest =>
    match splitComma rest with
    | [] => [[c]]
    | f :: others => if c = ',' then [] :: f :: others else (c :: f) :: others

/-- JavaScript Array.prototype.join with separator "," on the
character-list model. -/
def joinComma : List Str → Str
  | [] => []
  | [x] => x
  | x :: y :: xs => x ++ ',' :: joinComma (y :: xs)

/-- One recorded call to the external domain trie delegate
(HostnameSmolTrie.add).  The fields model the JavaScript arguments in
order; none models an argument that was omitted or passed as null. -/
structure TrieAdd where
  domain : Option Str
  isSuffix : Bool
  suffixStart : Option Nat
  priority : Option Nat
deriving DecidableEq

/-- The accumulator state of RuleOutput (base.ts lines 15-36): the
ordered log of domain trie calls, the seventeen string-set buckets, and
the ordered passthrough bucket otherRules.  JavaScript Set iteration
order is insertion order, so a set is modelled as a duplicate-free list
extended by setAdd; an element is Option Str because JavaScript code
can pass undefined where a string is expected. -/
structure RuleState where
  trieOps : List TrieAdd
  domainKeywords : List (Option Str)
  domainWildcard : List (Option Str)
  userAgent : List (Option Str)
  processName : List (Option Str)
  processPath : List (Option Str)
  urlRegex : List (Option Str)
  ipcidr : List (Option Str)
  ipcidrNoResolve : List (Option Str)
  ipasn : List (Option Str)
  ipasnNoResolve : List (Option Str)
  ipcidr6 : List (Option Str)
  ipcidr6NoResolve : List (Option Str)
  geoip : List (Option Str)
  groipNoResolve : List (Option Str)
  sourceIpOrCidr : List (Option Str)
  sourcePort : List (Option Str)
  destPort : List (Option Str)
  otherRules : List Str
deriving DecidableEq

/-- The freshly constructed accumulator: every bucket is empty. -/
def initState : RuleState :=
  ⟨[], [], [], [], [], [], [], [], [], [], [], [], [], [], [], [], [], [], []⟩

/-- JavaScript Set.prototype.add: appends the value unless it is
already present. -/
def setAdd (s : List (Option Str)) (v : Option Str) : List (Option Str) :=
  if v ∈ s then s else s ++ [v]

/-- addDomainSuffix (base.ts lines 109-112) with an explicitly supplied
lineFromDot flag, as used by the two ingestion paths: issues
trie.add(domain, true, lineFromDot ? 1 : 0). -/
def addDomainSuffix (st : RuleState) (domain : Option Str) (lineFromDot : Bool) : RuleState :=
  { st with trieOps := st.trieOps ++ [⟨domain, true, some (if lineFromDot then 1 else 0), none⟩] }

/-- addFromDomainsetPromise (base.ts lines 126-134): a line with a
leading dot becomes a suffix rule with lineFromDot set, every other
line is an exact trie.add(line, false, null, 0). -/
def addFromDomainset (st : RuleState) (lines : List Str) : RuleState :=
  lines.foldl
    (fun st line =>
      if line.head? = some '.' then addDomainSuffix st (some line) true
      else { st with trieOps := st.trieOps ++ [⟨some line, false, none, some 0⟩] })
    st

/-- The per-line body of addFromRulesetPromise (base.ts lines 141-202):
splits the line on commas and dispatches on the first field.  The
result none models the thrown TypeError when the PROCESS-NAME branch
reads value.includes with value undefined; every other branch returns
the updated state. -/
def classifyLine (st : RuleState) (line : Str) : Option RuleState :=
  let splitted := splitComma line
  let type := splitted.headD []
  let value := splitted[1]?
  let arg := splitted[2]?
  if type = str "DOMAIN" then
    some { st with trieOps := st.trieOps ++ [⟨value, false, none, some 0⟩] }
  else if type = str "DOMAIN-SUFFIX" then
    some (addDomainSuffix st value false)
  else if type = str "DOMAIN-KEYWORD" then
    some { st with domainKeywords := setAdd st.domainKeywords value }
  else if type = str "DOMAIN-WILDCARD" then
    some { st with domainWildcard := setAdd st.domainWildcard value }
  else if type = str "USER-AGENT" then
    some { st with userAgent := setAdd st.userAgent value }
  else if type = str "PROCESS-NAME" then
    match value with
    | none => none
    | some v =>
      if '/' ∈ v ∨ '\\' ∈ v then
        some { st with processPath := setAdd st.processPath (some v) }
      else
        some { st with processName := setAdd st.processName (some v) }
  else if type = str "URL-REGEX" then
    some { st with urlRegex := setAdd st.urlRegex (some (joinComma (splitted.drop 1))) }
  else if type = str "IP-CIDR" then
    some (if arg = some (str "no-resolve")
      then { st with ipcidrNoResolve := setAdd st.ipcidrNoResolve value }
      else { st with ipcidr := setAdd st.ipcidr value })
  else if type = str "IP-CIDR6" then
    some (if arg = some (str "no-resolve")
      then { st with ipcidr6NoResolve := setAdd st.ipcidr6NoResolve value }
      else { st with ipcidr6 := setAdd st.ipcidr6 value })
  else if type = str "IP-ASN" then
    some (if arg = some (str "no-resolve")
      then { st with ipasnNoResolve := setAdd st.ipasnNoResolve value }
      else { st with ipasn := setAdd st.ipasn value })
  else if type = str "GEOIP" then
    some (if arg = some (str "no-resolve")
      then { st with groipNoResolve := setAdd st.groipNoResolve value }
      else { st with geoip := setAdd st.geoip value })
  else if type = str "SRC-IP" then
    some { st with sourceIpOrCidr := setAdd st.sourceIpOrCidr value }
  else if type = str "SRC-PORT" then
    some { st with sourcePort := setAdd st.sourcePort value }
  else if type = str "DEST-PORT" then
    some { st with destPort := setAdd st.destPort value }
  else
    some { st with otherRules := st.otherRules ++ [line] }

/-- addFromRulesetPromise over a whole source: the lines are classified
strictly in order; a thrown TypeError aborts the remainder. -/
def addFromRuleset (st : RuleState) (lines : List Str) : Option RuleState :=
  lines.foldlM classifyLine st

/-- The fourteen recognized first fields of the ruleset dispatch. -/
def supportedTypes : List Str :=
  [str "DOMAIN", str "DOMAIN-SUFFIX", str "DOMAIN-KEYWORD", str "DOMAIN-WILDCARD",
   str "USER-AGENT", str "PROCESS-NAME", str "URL-REGEX", str "IP-CIDR",
   str "IP-CIDR6", str "IP-ASN", str "GEOIP", str "SRC-IP", str "SRC-PORT",
   str "DEST-PORT"]

/-- A ruleset line whose second comma-separated field exists and is a
nonempty string. -/
def goodLine (line : Str) : Prop :=
  2 ≤ (splitComma line).length ∧ (splitComma line)[1]? ≠ some []

/-- No string-set bucket of the accumulator contains the empty
string. -/
def noEmptyInvariant (st : RuleState) : Prop :=
  some [] ∉ st.domainKeywords ∧ some [] ∉ st.domainWildcard ∧ some [] ∉ st.userAgent ∧
  some [] ∉ st.processName ∧ some [] ∉ st.processPath ∧ some [] ∉ st.urlRegex ∧
  some [] ∉ st.ipcidr ∧ some [] ∉ st.ipcidrNoResolve ∧ some [] ∉ st.ipasn ∧
  some [] ∉ st.ipasnNoResolve ∧ some [] ∉ st.ipcidr6 ∧ some [] ∉ st.ipcidr6NoResolve ∧
  some [] ∉ st.geoip ∧ some [] ∉ st.groipNoResolve ∧ some [] ∉ st.sourceIpOrCidr ∧
  some [] ∉ st.sourcePort ∧ some [] ∉ st.destPort

/-- ipToCidr (base.ts lines 214-220): pass through a value that already
contains a slash, otherwise append the host-route suffix of the address
family. -/
def ipToCidr (ip : Str) (version : Nat) : Str :=
  if '/' ∈ ip then ip
  else if version = 4 then ip ++ str "/32"
  else ip ++ str "/128"

/-- bulkAddCIDR4 (base.ts lines 222-227). -/
def bulkAddCIDR4 (st : RuleState) (cidrs : List Str) : RuleState :=
  cidrs.foldl (fun st c => { st with ipcidr := setAdd st.ipcidr (some (ipToCidr c 4)) }) st

/-- bulkAddCIDR4NoResolve (base.ts lines 229-234). -/
def bulkAddCIDR4NoResolve (st : RuleState) (cidrs : List Str) : RuleState :=
  cidrs.foldl
    (fun st c => { st with ipcidrNoResolve := setAdd st.ipcidrNoResolve (some (ipToCidr c 4)) }) st

/-- bulkAddCIDR6 (base.ts lines 236-241). -/
def bulkAddCIDR6 (st : RuleState) (cidrs : List Str) : RuleState :=
  cidrs.foldl (fun st c => { st with ipcidr6 := setAdd st.ipcidr6 (some (ipToCidr c 6)) }) st

/-- bulkAddCIDR6NoResolve (base.ts lines 243-248). -/
def bulkAddCIDR6NoResolve (st : RuleState) (cidrs : List Str) : RuleState :=
  cidrs.foldl
    (fun st c => { st with ipcidr6NoResolve := setAdd st.ipcidr6NoResolve (some (ipToCidr c 6)) }) st

/-- The lifecycle metadata of a RuleOutput instance relevant to the
precondition guards: whether the ingestion promise chain is still
pending, the publication metadata, and the memoized preprocessed view
(modelled with an opaque Str payload). -/
structure MetaState where
  pendingPromise : Bool
  title : Option Str
  description : Option (List Str)
  preprocessed : Option Str
deriving DecidableEq

/-- runPreprocess (base.ts lines 266-278) instrumented with the number
of times preprocess was invoked: when the memo field is empty it first
runs guardPendingPromise (base.ts lines 258-264), which throws if the
promise chain was not cleared by done, and otherwise fills the memo by
invoking preprocess exactly once; when the memo field is already filled
it returns at once without any guard or invocation. -/
def runPreprocess (st : MetaState) (f : Unit → Str) : Except Str (MetaState × Nat) :=
  if st.preprocessed = none then
    if st.pendingPromise then
      Except.error (str "You should call done() before calling this method")
    else
      Except.ok ({ st with preprocessed := some (f ()) }, 1)
  else
    Except.ok (st, 0)

/-- JavaScript truthiness of the title field: invariant(this.title)
throws when title is null or the empty string. -/
def falsyTitle : Option Str → Bool
  | none => true
  | some t => t.isEmpty

/-- The metadata invariants executed by the write paths (base.ts lines
283-284 and 314-315): invariant(this.title, "Missing title") then
invariant(this.description, "Missing description").  A description
array is truthy whenever it is present. -/
def writeCheck (st : MetaState) : Except Str Unit :=
  if falsyTitle st.title then Except.error (str "Missing title")
  else if st.description = none then Except.error (str "Missing description")
  else Except.ok ()

/-! ## Relating the indexed loop of fileEqual to its structural form -/

theorem fileEqualGo_eq_aux (S : List Str) : ∀ (A : List Str) (idx : Nat), idx ≤ A.length →
    fileEqualGo A idx S = fileEqualAux (A.drop idx) S := by
  induction S with
  | nil =>
    intro A idx h
    simp only [fileEqualGo]
    rcases Nat.lt_or_ge idx A.length with hlt | hle
    · have hd := List.drop_eq_getElem_cons hlt
      rw [hd]
      simp [fileEqualAux, Nat.not_le.mpr hlt]
    · have hd : A.drop idx = [] := List.drop_eq_nil_of_le hle
      rw [hd]
      simp [fileEqualAux, hle]
  | cons b rest ih =>
    intro A idx h
    simp only [fileEqualGo]
    rcases Nat.lt_or_ge idx A.length with hlt | hle
    · rw [List.drop_eq_getElem_cons hlt]
      simp only [fileEqualAux, if_neg (Nat.not_le.mpr hlt)]
      rw [ih A (idx + 1) hlt]
      have hget : A.getD idx [] = A[idx] := by
        rw [List.getD_eq_getElem?_getD, List.getElem?_eq_getElem hlt, Option.getD_some]
      rw [hget]
    · have hidx : idx = A.length := Nat.le_antisymm h hle
      have hd : A.drop idx = [] := List.drop_eq_nil_of_le hle
      rw [hd]
      simp [fileEqualAux, hidx, hle]

theorem fileEqual_eq_aux (A S : List Str) (h : A ≠ []) : fileEqual A S = fileEqualAux A S := by
  have h0 : ¬ A.length = 0 := fun h0 => h (List.length_eq_zero.mp h0)
  simp only [fileEqual, if_neg h0]
  simpa using fileEqualGo_eq_aux S A 0 (Nat.zero_le _)

theorem fileEqualAux_false_of_shorter : ∀ (A S : List Str), S.length < A.length →
    fileEqualAux A S = false := by
  intro A
  induction A with
  | nil => intro S h; exact absurd h (Nat.not_lt_zero _)
  | cons a as ih =>
    intro S h
    cases S with
    | nil => rfl
    | cons b bs =>
      simp only [fileEqualAux]
      rw [ih bs (by simpa using Nat.lt_of_succ_lt_succ h)]
      exact Bool.and_false _

theorem fileEqualAux_longer : ∀ (A S : List Str), A.length < S.length →
    (fileEqualAux A S = true ↔
      ((A.zip S).all fun p => lineEqual p.1 p.2) = true ∧ (S.getD A.length []).isEmpty = true) := by
  intro A
  induction A with
  | nil =>
    intro S h
    cases S with
    | nil => exact absurd h (Nat.lt_irrefl _)
    | cons b bs => simp [fileEqualAux]
  | cons a as ih =>
    intro S h
    cases S with
    | nil => exact absurd h (by simp)
    | cons b bs =>
      have h' : as.length < bs.length := by simpa using Nat.lt_of_succ_lt_succ h
      simp only [fileEqualAux, List.zip_cons_cons, List.all_cons, Bool.and_eq_true,
        List.length_cons, List.getD_cons_succ]
      rw [ih bs h']
      tauto

/-! ## Claims about fileEqual -/

/-- C5: for every existing-file line sequence, fileEqual with an empty
candidate line list returns false: an empty candidate is never
considered equal to any existing file. -/
theorem fileEqual_empty_candidate (source : List Str) :
    fileEqual [] source = false := rfl

/-- C1 counterexample: with candidate [ "a" ] and existing file
[ "a", "", "x" ] the existing file has more lines than the candidate
and fileEqual reports the files equal, yet the second extra existing
line "x" is not empty: the loop stops at the first extra line, so
equality does not require every extra existing line to be empty. -/
theorem fileEqual_extra_lines_counterexample :
    ([str "a"] : List Str).length < ([str "a", str "", str "x"] : List Str).length ∧
    fileEqual [str "a"] [str "a", str "", str "x"] = true ∧
    ¬ (∀ l ∈ ([str "a", str "", str "x"] : List Str).drop ([str "a"] : List Str).length,
        l = ([] : Str)) := by
  decide

/-- C1 (amended): for every nonempty candidate line list, when the
existing file has fewer lines than the candidate the two are never
equal, and when the existing file has more lines than the candidate
they are equal exactly when every candidate line is lockstep line-equal
to the corresponding existing line and the first extra existing line is
empty; existing lines beyond that first extra line are not examined. -/
theorem fileEqual_length_discipline (A S : List Str) (hA : A ≠ []) :
    (S.length < A.length → fileEqual A S = false) ∧
    (A.length < S.length →
      (fileEqual A S = true ↔
        ((A.zip S).all fun p => lineEqual p.1 p.2) = true ∧
          (S.getD A.length []).isEmpty = true)) := by
  constructor
  · intro h
    rw [fileEqual_eq_aux A S hA]
    exact fileEqualAux_false_of_shorter A S h
  · intro h
    rw [fileEqual_eq_aux A S hA]
    exact fileEqualAux_longer A S h

/-- C1 witness: instantiates the length discipline with candidate
[ "a" ] against an empty existing file. -/
theorem fileEqual_length_discipline_witness :
    ([str "a"] : List Str) ≠ [] ∧ fileEqual [str "a"] [] = false :=
  ⟨by decide, (fileEqual_length_discipline [str "a"] [] (by decide)).1 (by decide)⟩

/-! ## Claims about the lockstep line comparison -/

theorem lineEqual_iff (a b : Str) :
    lineEqual a b = true ↔
      (a = [] ∧ b = []) ∨
      (a.head? = some '#' ∧ b.head? = some '#') ∨
      (a.head? = some '!' ∧ b.head? = some '!') ∨
      (a.head? = some '/' ∧ b.head? = some '/' ∧ a[1]? = some '/' ∧ b[1]? = some '/' ∧
        a[3]? = some '#' ∧ b[3]? = some '#') ∨
      a = b := by
  have hne : ∀ (l : Str) (c : Char), l.head? = some c → ¬ l.length = 0 := by
    intro l c hc
    cases l with
    | nil => simp at hc
    | cons x xs => simp
  unfold lineEqual
  split_ifs with h1 h2 h3 h4 h5 h6
  · have ha := List.length_eq_zero.mp h1.1
    have hb := List.length_eq_zero.mp h1.2
    simp [ha, hb]
  · simp only [false_iff]
    rintro (⟨ha0, hb0⟩ | ⟨hh, hh'⟩ | ⟨hh, hh'⟩ | ⟨hh, hh', _⟩ | rfl)
    · exact h1 ⟨by simp [ha0], by simp [hb0]⟩
    · rcases h2 with h | h
      · exact hne a _ hh h
      · exact hne b _ hh' h
    · rcases h2 with h | h
      · exact hne a _ hh h
      · exact hne b _ hh' h
    · rcases h2 with h | h
      · exact hne a _ hh h
      · exact hne b _ hh' h
    · rcases h2 with h | h <;> exact h1 ⟨h, h⟩
  · simp only [false_iff]
    rintro (⟨ha0, hb0⟩ | ⟨hh, hh'⟩ | ⟨hh, hh'⟩ | ⟨hh, hh', _⟩ | rfl)
    · exact h3 (by rw [ha0, hb0])
    · exact h3 (by rw [hh, hh'])
    · exact h3 (by rw [hh, hh'])
    · exact h3 (by rw [hh, hh'])
    · exact h3 rfl
  · exact iff_of_true rfl (Or.inr (Or.inl h4))
  · exact iff_of_true rfl (Or.inr (Or.inr (Or.inl h5)))
  · exact iff_of_true rfl (Or.inr (Or.inr (Or.inr (Or.inl h6))))
  · simp only [decide_eq_true_eq]
    constructor
    · exact fun h => Or.inr (Or.inr (Or.inr (Or.inr h)))
    · rintro (⟨ha0, hb0⟩ | hcomment | hbang | hdr | h)
      · rw [ha0, hb0]
      · exact absurd hcomment h4
      · exact absurd hbang h5
      · exact absurd hdr h6
      · exact h

theorem lineEqual_firstChar_ne (a b : Str) (ca cb : Char) (ha : a.head? = some ca)
    (hb : b.head? = some cb) (hcacb : ca ≠ cb) : lineEqual a b = false := by
  have ha0 : ¬ a.length = 0 := by
    cases a with
    | nil => simp at ha
    | cons x xs => simp
  have hb0 : ¬ b.length = 0 := by
    cases b with
    | nil => simp at hb
    | cons x xs => simp
  have hne' : a.head? ≠ b.head? := by
    rw [ha, hb]
    exact fun h => hcacb (Option.some.inj h)
  unfold lineEqual
  rw [if_neg (fun h => ha0 h.1), if_neg (fun h => h.elim ha0 hb0), if_pos hne']

/-- C3: two lines compared in lockstep by fileEqual count as equal
exactly when both are empty, or both start with the comment marker '#',
or both start with the comment marker '!', or both are header divider
lines (a '/' at index 0 and 1 and a '#' at index 3), or they are byte
identical; and two lines whose first characters differ are never
equal. -/
theorem lineEqual_characterization (a b : Str) :
    (lineEqual a b = true ↔
      (a = [] ∧ b = []) ∨
      (a.head? = some '#' ∧ b.head? = some '#') ∨
      (a.head? = some '!' ∧ b.head? = some '!') ∨
      (a.head? = some '/' ∧ b.head? = some '/' ∧ a[1]? = some '/' ∧ b[1]? = some '/' ∧
        a[3]? = some '#' ∧ b[3]? = some '#') ∨
      a = b) ∧
    (∀ ca cb, a.head? = some ca → b.head? = some cb → ca ≠ cb → lineEqual a b = false) :=
  ⟨lineEqual_iff a b, fun _ _ ha hb hcacb => lineEqual_firstChar_ne a b _ _ ha hb hcacb⟩

/-- C3 witness: the comment line "#a" and the comment line "!b" have
differing first characters and are reported unequal. -/
theorem lineEqual_characterization_witness :
    lineEqual (str "#a") (str "!b") = false :=
  (lineEqual_characterization (str "#a") (str "!b")).2 '#' '!' (by decide) (by decide) (by decide)

/-! ## Comma splitting and rejoining -/

theorem splitComma_ne_nil (l : Str) : splitComma l ≠ [] := by
  cases l with
  | nil => simp [splitComma]
  | cons c rest =>
    simp only [splitComma]
    cases splitComma rest with
    | nil => simp
    | cons f others => by_cases hc : c = ',' <;> simp [hc]

theorem joinComma_splitComma (l : Str) : joinComma (splitComma l) = l := by
  induction l with
  | nil => rfl
  | cons c rest ih =>
    simp only [splitComma]
    cases h : splitComma rest with
    | nil => exact absurd h (splitComma_ne_nil rest)
    | cons f others =>
      rw [h] at ih
      show joinComma (if c = ',' then [] :: f :: others else (c :: f) :: others) = c :: rest
      by_cases hc : c = ','
      · subst hc
        rw [if_pos rfl]
        simpa [joinComma] using ih
      · rw [if_neg hc]
        cases others with
        | nil =>
          simp only [joinComma] at ih ⊢
          rw [ih]
        | cons o os =>
          simp only [joinComma] at ih ⊢
          rw [List.cons_append, ih]

theorem splitComma_append (pre rest : Str) (h : ',' ∉ pre) :
    splitComma (pre ++ ',' :: rest) = pre :: splitComma rest := by
  induction pre with
  | nil =>
    rw [List.nil_append]
    show splitComma (',' :: rest) = [] :: splitComma rest
    simp only [splitComma]
    cases hr : splitComma rest with
    | nil => exact absurd hr (splitComma_ne_nil rest)
    | cons f others => simp
  | cons c pre ih =>
    have hc : ¬ c = ',' := fun hcc => h (by rw [hcc]; exact List.mem_cons_self _ _)
    have hpre : ',' ∉ pre := fun hm => h (List.mem_cons_of_mem _ hm)
    rw [List.cons_append]
    simp only [splitComma, ih hpre]
    simp [hc]

/-! ## Branch lemmas for the ruleset classifier -/

theorem classify_DOMAIN (st : RuleState) (line : Str)
    (h : (splitComma line).headD [] = str "DOMAIN") :
    classifyLine st line =
      some { st with trieOps := st.trieOps ++ [⟨(splitComma line)[1]?, false, none, some 0⟩] } := by
  simp only [classifyLine]
  rw [h]
  simp +decide [str]

theorem classify_DOMAIN_SUFFIX (st : RuleState) (line : Str)
    (h : (splitComma line).headD [] = str "DOMAIN-SUFFIX") :
    classifyLine st line =
      some { st with trieOps := st.trieOps ++ [⟨(splitComma line)[1]?, true, some 0, none⟩] } := by
  simp only [classifyLine, addDomainSuffix]
  rw [h]
  simp +decide [str]

theorem classify_DOMAIN_KEYWORD (st : RuleState) (line : Str)
    (h : (splitComma line).headD [] = str "DOMAIN-KEYWORD") :
    classifyLine st line =
      some { st with domainKeywords := setAdd st.domainKeywords (splitComma line)[1]? } := by
  simp only [classifyLine]
  rw [h]
  simp +decide [str]

theorem classify_DOMAIN_WILDCARD (st : RuleState) (line : Str)
    (h : (splitComma line).headD [] = str "DOMAIN-WILDCARD") :
    classifyLine st line =
      some { st with domainWildcard := setAdd st.domainWildcard (splitComma line)[1]? } := by
  simp only [classifyLine]
  rw [h]
  simp +decide [str]

theorem classify_USER_AGENT (st : RuleState) (line : Str)
    (h : (splitComma line).headD [] = str "USER-AGENT") :
    classifyLine st line =
      some { st with userAgent := setAdd st.userAgent (splitComma line)[1]? } := by
  simp only [classifyLine]
  rw [h]
  simp +decide [str]

theorem classify_PROCESS_NAME (st : RuleState) (line : Str) (v : Str)
    (h : (splitComma line).headD [] = str "PROCESS-NAME")
    (hv : (splitComma line)[1]? = some v) :
    classifyLine st line =
      some (if '/' ∈ v ∨ '\\' ∈ v
        then { st with processPath := setAdd st.processPath (some v) }
        else { st with processName := setAdd st.processName (some v) }) := by
  simp only [classifyLine]
  rw [h, hv]
  simp +decide [str]
  split_ifs with hpv <;> rfl

theorem classify_URL_REGEX (st : RuleState) (line : Str)
    (h : (splitComma line).headD [] = str "URL-REGEX") :
    classifyLine st line =
      some { st with urlRegex := setAdd st.urlRegex (some (joinComma ((splitComma line).drop 1))) } := by
  simp only [classifyLine]
  rw [h]
  simp +decide [str]

theorem classify_IP_CIDR (st : RuleState) (line : Str)
    (h : (splitComma line).headD [] = str "IP-CIDR") :
    classifyLine st line =
      some (if (splitComma line)[2]? = some (str "no-resolve")
        then { st with ipcidrNoResolve := setAdd st.ipcidrNoResolve (splitComma line)[1]? }
        else { st with ipcidr := setAdd st.ipcidr (splitComma line)[1]? }) := by
  simp only [classifyLine]
  rw [h]
  simp +decide [str]

theorem classify_IP_CIDR6 (st : RuleState) (line : Str)
    (h : (splitComma line).headD [] = str "IP-CIDR6") :
    classifyLine st line =
      some (if (splitComma line)[2]? = some (str "no-resolve")
        then { st with ipcidr6NoResolve := setAdd st.ipcidr6NoResolve (splitComma line)[1]? }
        else { st with ipcidr6 := setAdd st.ipcidr6 (splitComma line)[1]? }) := by
  simp only [classifyLine]
  rw [h]
  simp +decide [str]

theorem classify_IP_ASN (st : RuleState) (line : Str)
    (h : (splitComma line).headD [] = str "IP-ASN") :
    classifyLine st line =
      some (if (splitComma line)[2]? = some (str "no-resolve")
        then { st with ipasnNoResolve := setAdd st.ipasnNoResolve (splitComma line)[1]? }
        else { st with ipasn := setAdd st.ipasn (splitComma line)[1]? }) := by
  simp only [classifyLine]
  rw [h]
  simp +decide [str]

theorem classify_GEOIP (st : RuleState) (line : Str)
    (h : (splitComma line).headD [] = str "GEOIP") :
    classifyLine st line =
      some (if (splitComma line)[2]? = some (str "no-resolve")
        then { st with groipNoResolve := setAdd st.groipNoResolve (splitComma line)[1]? }
        else { st with geoip := setAdd st.geoip (splitComma line)[1]? }) := by
  simp only [classifyLine]
  rw [h]
  simp +decide [str]

theorem classify_SRC_IP (st : RuleState) (line : Str)
    (h : (splitComma line).headD [] = str "SRC-IP") :
    classifyLine st line =
      some { st with sourceIpOrCidr := setAdd st.sourceIpOrCidr (splitComma line)[1]? } := by
  simp only [classifyLine]
  rw [h]
  simp +decide [str]

theorem classify_SRC_PORT (st : RuleState) (line : Str)
    (h : (splitComma line).headD [] = str "SRC-PORT") :
    classifyLine st line =
      some { st with sourcePort := setAdd st.sourcePort (splitComma line)[1]? } := by
  simp only [classifyLine]
  rw [h]
  simp +decide [str]

theorem classify_DEST_PORT (st : RuleState) (line : Str)
    (h : (splitComma line).headD [] = str "DEST-PORT") :
    classifyLine st line =
      some { st with destPort := setAdd st.destPort (splitComma line)[1]? } := by
  simp only [classifyLine]
  rw [h]
  simp +decide [str]

theorem classify_default (st : RuleState) (line : Str)
    (h : (splitComma line).headD [] ∉ supportedTypes) :
    classifyLine st line = some { st with otherRules := st.otherRules ++ [line] } := by
  simp only [supportedTypes, List.mem_cons, List.not_mem_nil, or_false, not_or] at h
  obtain ⟨h1, h2, h3, h4, h5, h6, h7, h8, h9, h10, h11, h12, h13, h14⟩ := h
  simp only [classifyLine]
  rw [if_neg h1, if_neg h2, if_neg h3, if_neg h4, if_neg h5, if_neg h6, if_neg h7,
    if_neg h8, if_neg h9, if_neg h10, if_neg h11, if_neg h12, if_neg h13, if_neg h14]

/-- C4: a rule line with a supported first field is routed to exactly
one bucket of the accumulator and duplicated into no other, as witnessed
by the result state being the input state with a single field extended:
DOMAIN issues an exact trie add, DOMAIN-SUFFIX a suffix trie add with
boundary 0, DOMAIN-KEYWORD, DOMAIN-WILDCARD, USER-AGENT and URL-REGEX
go to their sets, PROCESS-NAME goes to processPath exactly when the
value contains a path separator and to processName otherwise, the four
IP families go to the no-resolve variant exactly when the third field
is "no-resolve" and to the resolve variant otherwise, SRC-IP, SRC-PORT
and DEST-PORT go to their sets, and a line whose first field is
unrecognized is appended verbatim at the end of otherRules. -/
theorem ruleset_routing (st : RuleState) (line : Str) :
    ((splitComma line).headD [] = str "DOMAIN" →
      classifyLine st line =
        some { st with trieOps := st.trieOps ++ [⟨(splitComma line)[1]?, false, none, some 0⟩] }) ∧
    ((splitComma line).headD [] = str "DOMAIN-SUFFIX" →
      classifyLine st line =
        some { st with trieOps := st.trieOps ++ [⟨(splitComma line)[1]?, true, some 0, none⟩] }) ∧
    ((splitComma line).headD [] = str "DOMAIN-KEYWORD" →
      classifyLine st line =
        some { st with domainKeywords := setAdd st.domainKeywords (splitComma line)[1]? }) ∧
    ((splitComma line).headD [] = str "DOMAIN-WILDCARD" →
      classifyLine st line =
        some { st with domainWildcard := setAdd st.domainWildcard (splitComma line)[1]? }) ∧
    ((splitComma line).headD [] = str "USER-AGENT" →
      classifyLine st line =
        some { st with userAgent := setAdd st.userAgent (splitComma line)[1]? }) ∧
    ((splitComma line).headD [] = str "PROCESS-NAME" →
      ∀ v, (splitComma line)[1]? = some v →
        classifyLine st line =
          some (if '/' ∈ v ∨ '\\' ∈ v
            then { st with processPath := setAdd st.processPath (some v) }
            else { st with processName := setAdd st.processName (some v) })) ∧
    ((splitComma line).headD [] = str "URL-REGEX" →
      classifyLine st line =
        some { st with
          urlRegex := setAdd st.urlRegex (some (joinComma ((splitComma line).drop 1))) }) ∧
    ((splitComma line).headD [] = str "IP-CIDR" →
      classifyLine st line =
        some (if (splitComma line)[2]? = some (str "no-resolve")
          then { st with ipcidrNoResolve := setAdd st.ipcidrNoResolve (splitComma line)[1]? }
          else { st with ipcidr := setAdd st.ipcidr (splitComma line)[1]? })) ∧
    ((splitComma line).headD [] = str "IP-CIDR6" →
      classifyLine st line =
        some (if (splitComma line)[2]? = some (str "no-resolve")
          then { st with ipcidr6NoResolve := setAdd st.ipcidr6NoResolve (splitComma line)[1]? }
          else { st with ipcidr6 := setAdd st.ipcidr6 (splitComma line)[1]? })) ∧
    ((splitComma line).headD [] = str "IP-ASN" →
      classifyLine st line =
        some (if (splitComma line)[2]? = some (str "no-resolve")
          then { st with ipasnNoResolve := setAdd st.ipasnNoResolve (splitComma line)[1]? }
          else { st with ipasn := setAdd st.ipasn (splitComma line)[1]? })) ∧
    ((splitComma line).headD [] = str "GEOIP" →
      classifyLine st line =
        some (if (splitComma line)[2]? = some (str "no-resolve")
          then { st with groipNoResolve := setAdd st.groipNoResolve (splitComma line)[1]? }
          else { st with geoip := setAdd st.geoip (splitComma line)[1]? })) ∧
    ((splitComma line).headD [] = str "SRC-IP" →
      classifyLine st line =
        some { st with sourceIpOrCidr := setAdd st.sourceIpOrCidr (splitComma line)[1]? }) ∧
    ((splitComma line).headD [] = str "SRC-PORT" →
      classifyLine st line =
        some { st with sourcePort := setAdd st.sourcePort (splitComma line)[1]? }) ∧
    ((splitComma line).headD [] = str "DEST-PORT" →
      classifyLine st line =
        some { st with destPort := setAdd st.destPort (splitComma line)[1]? }) ∧
    ((splitComma line).headD [] ∉ supportedTypes →
      classifyLine st line = some { st with otherRules := st.otherRules ++ [line] }) :=
  ⟨classify_DOMAIN st line, classify_DOMAIN_SUFFIX st line, classify_DOMAIN_KEYWORD st line,
    classify_DOMAIN_WILDCARD st line, classify_USER_AGENT st line,
    fun h v hv => classify_PROCESS_NAME st line v h hv, classify_URL_REGEX st line,
    classify_IP_CIDR st line, classify_IP_CIDR6 st line, classify_IP_ASN st line,
    classify_GEOIP st line, classify_SRC_IP st line, classify_SRC_PORT st line,
    classify_DEST_PORT st line, classify_default st line⟩

/-- C4 witness: the line "DOMAIN-KEYWORD,foo" extends exactly the
keyword bucket of the fresh accumulator. -/
theorem ruleset_routing_witness :
    classifyLine initState (str "DOMAIN-KEYWORD,foo") =
      some { initState with
        domainKeywords :=
          setAdd initState.domainKeywords (splitComma (str "DOMAIN-KEYWORD,foo"))[1]? } :=
  (ruleset_routing initState (str "DOMAIN-KEYWORD,foo")).2.2.1 (by decide)

/-- C9: for every line of the form URL-REGEX,rest, where rest may
itself contain commas, the value stored in the urlRegex bucket is
exactly the substring of the line after the first comma: splitting on
commas and rejoining the fields after the first with commas restores
rest. -/
theorem urlRegex_rejoins_tail (st : RuleState) (rest : Str) :
    classifyLine st (str "URL-REGEX," ++ rest) =
      some { st with urlRegex := setAdd st.urlRegex (some rest) } := by
  have he : str "URL-REGEX," ++ rest = str "URL-REGEX" ++ ',' :: rest := rfl
  have h1 : splitComma (str "URL-REGEX," ++ rest) = str "URL-REGEX" :: splitComma rest := by
    rw [he, splitComma_append (str "URL-REGEX") rest (by decide)]
  have h2 : (splitComma (str "URL-REGEX," ++ rest)).headD [] = str "URL-REGEX" := by
    rw [h1]; rfl
  rw [classify_URL_REGEX st _ h2, h1]
  simp [joinComma_splitComma]

/-- C10: a line ingested from a domain-set source is routed by its
first character: a leading dot yields a suffix trie add whose suffix
boundary starts one character into the stored string, any other line
yields an exact trie add. -/
theorem domainset_routing (st : RuleState) (line : Str) :
    (line.head? = some '.' →
      addFromDomainset st [line] =
        { st with trieOps := st.trieOps ++ [⟨some line, true, some 1, none⟩] }) ∧
    (line.head? ≠ some '.' →
      addFromDomainset st [line] =
        { st with trieOps := st.trieOps ++ [⟨some line, false, none, some 0⟩] }) := by
  constructor
  · intro h
    simp [addFromDomainset, addDomainSuffix, h]
  · intro h
    simp [addFromDomainset, h]

/-- C10 witness: the dotted line ".foo" becomes a suffix trie add with
boundary 1 on the fresh accumulator. -/
theorem domainset_routing_witness :
    addFromDomainset initState [str ".foo"] =
      { initState with trieOps := initState.trieOps ++ [⟨some (str ".foo"), true, some 1, none⟩] } :=
  (domainset_routing initState (str ".foo")).1 (by decide)

/-! ## Set semantics of the buckets and the empty-string question -/

theorem setAdd_idem (s : List (Option Str)) (v : Option Str) :
    setAdd (setAdd s v) v = setAdd s v := by
  by_cases h : v ∈ s
  · simp [setAdd, h]
  · simp [setAdd, h]

theorem mem_setAdd_self (s : List (Option Str)) (v : Option Str) : v ∈ setAdd s v := by
  unfold setAdd
  split_ifs with h
  · exact h
  · simp

theorem mem_setAdd_of_mem (s : List (Option Str)) (v x : Option Str) (h : x ∈ s) :
    x ∈ setAdd s v := by
  unfold setAdd
  split_ifs with h'
  · exact h
  · exact List.mem_append_left _ h

theorem not_mem_setAdd (s : List (Option Str)) (v x : Option Str)
    (hs : x ∉ s) (hv : v ≠ x) : x ∉ setAdd s v := by
  unfold setAdd
  split_ifs with h
  · exact hs
  · intro hx
    rcases List.mem_append.mp hx with h1 | h1
    · exact hs h1
    · rw [List.mem_singleton] at h1
      exact hv h1.symm

theorem joinComma_cons_ne_nil (v : Str) (others : List Str) (hv : v ≠ []) :
    joinComma (v :: others) ≠ [] := by
  cases others with
  | nil => simpa [joinComma] using hv
  | cons o os => simp [joinComma]

theorem classifyLine_preserves_noEmpty (st st' : RuleState) (line : Str)
    (hgood : goodLine line) (hst : noEmptyInvariant st)
    (h : classifyLine st line = some st') : noEmptyInvariant st' := by
  obtain ⟨hlen, hval⟩ := hgood
  obtain ⟨i1, i2, i3, i4, i5, i6, i7, i8, i9, i10, i11, i12, i13, i14, i15, i16, i17⟩ := hst
  by_cases h1 : (splitComma line).headD [] = str "DOMAIN"
  · rw [classify_DOMAIN st line h1] at h
    obtain rfl := Option.some.inj h
    exact ⟨i1, i2, i3, i4, i5, i6, i7, i8, i9, i10, i11, i12, i13, i14, i15, i16, i17⟩
  by_cases h2 : (splitComma line).headD [] = str "DOMAIN-SUFFIX"
  · rw [classify_DOMAIN_SUFFIX st line h2] at h
    obtain rfl := Option.some.inj h
    exact ⟨i1, i2, i3, i4, i5, i6, i7, i8, i9, i10, i11, i12, i13, i14, i15, i16, i17⟩
  by_cases h3 : (splitComma line).headD [] = str "DOMAIN-KEYWORD"
  · rw [classify_DOMAIN_KEYWORD st line h3] at h
    obtain rfl := Option.some.inj h
    exact ⟨not_mem_setAdd _ _ _ i1 hval, i2, i3, i4, i5, i6, i7, i8, i9, i10, i11, i12, i13,
      i14, i15, i16, i17⟩
  by_cases h4 : (splitComma line).headD [] = str "DOMAIN-WILDCARD"
  · rw [classify_DOMAIN_WILDCARD st line h4] at h
    obtain rfl := Option.some.inj h
    exact ⟨i1, not_mem_setAdd _ _ _ i2 hval, i3, i4, i5, i6, i7, i8, i9, i10, i11, i12, i13,
      i14, i15, i16, i17⟩
  by_cases h5 : (splitComma line).headD [] = str "USER-AGENT"
  · rw [classify_USER_AGENT st line h5] at h
    obtain rfl := Option.some.inj h
    exact ⟨i1, i2, not_mem_setAdd _ _ _ i3 hval, i4, i5, i6, i7, i8, i9, i10, i11, i12, i13,
      i14, i15, i16, i17⟩
  by_cases h6 : (splitComma line).headD [] = str "PROCESS-NAME"
  · obtain ⟨v, hv⟩ : ∃ v, (splitComma line)[1]? = some v :=
      ⟨(splitComma line)[1], List.getElem?_eq_getElem hlen⟩
    have hvne : some v ≠ some ([] : Str) := by rw [hv] at hval; exact hval
    rw [classify_PROCESS_NAME st line v h6 hv] at h
    by_cases hsep : '/' ∈ v ∨ '\\' ∈ v
    · rw [if_pos hsep] at h
      obtain rfl := Option.some.inj h
      exact ⟨i1, i2, i3, i4, not_mem_setAdd _ _ _ i5 hvne, i6, i7, i8, i9, i10, i11, i12, i13,
        i14, i15, i16, i17⟩
    · rw [if_neg hsep] at h
      obtain rfl := Option.some.inj h
      exact ⟨i1, i2, i3, not_mem_setAdd _ _ _ i4 hvne, i5, i6, i7, i8, i9, i10, i11, i12, i13,
        i14, i15, i16, i17⟩
  by_cases h7 : (splitComma line).headD [] = str "URL-REGEX"
  · rw [classify_URL_REGEX st line h7] at h
    obtain rfl := Option.some.inj h
    obtain ⟨t, v2, rest2, hsp⟩ : ∃ t v2 rest2, splitComma line = t :: v2 :: rest2 := by
      cases hsp : splitComma line with
      | nil => rw [hsp] at hlen; simp at hlen
      | cons t ts =>
        cases ts with
        | nil => rw [hsp] at hlen; simp at hlen
        | cons v2 rest2 => exact ⟨t, v2, rest2, rfl⟩
    rw [hsp] at hval
    simp only [List.getElem?_cons_succ, List.getElem?_cons_zero, ne_eq, Option.some.injEq] at hval
    have hne : some (joinComma ((splitComma line).drop 1)) ≠ some ([] : Str) := by
      rw [hsp]
      intro hh
      exact joinComma_cons_ne_nil v2 rest2 hval (Option.some.inj hh)
    exact ⟨i1, i2, i3, i4, i5, not_mem_setAdd _ _ _ i6 hne, i7, i8, i9, i10, i11, i12, i13,
      i14, i15, i16, i17⟩
  by_cases h8 : (splitComma line).headD [] = str "IP-CIDR"
  · rw [classify_IP_CIDR st line h8] at h
    obtain rfl := Option.some.inj h
    split_ifs with harg
    · exact ⟨i1, i2, i3, i4, i5, i6, i7, not_mem_setAdd _ _ _ i8 hval, i9, i10, i11, i12, i13,
        i14, i15, i16, i17⟩
    · exact ⟨i1, i2, i3, i4, i5, i6, not_mem_setAdd _ _ _ i7 hval, i8, i9, i10, i11, i12, i13,
        i14, i15, i16, i17⟩
  by_cases h9 : (splitComma line).headD [] = str "IP-CIDR6"
  · rw [classify_IP_CIDR6 st line h9] at h
    obtain rfl := Option.some.inj h
    split_ifs with harg
    · exact ⟨i1, i2, i3, i4, i5, i6, i7, i8, i9, i10, i11, not_mem_setAdd _ _ _ i12 hval, i13,
        i14, i15, i16, i17⟩
    · exact ⟨i1, i2, i3, i4, i5, i6, i7, i8, i9, i10, not_mem_setAdd _ _ _ i11 hval, i12, i13,
        i14, i15, i16, i17⟩
  by_cases h10 : (splitComma line).headD [] = str "IP-ASN"
  · rw [classify_IP_ASN st line h10] at h
    obtain rfl := Option.some.inj h
    split_ifs with harg
    · exact ⟨i1, i2, i3, i4, i5, i6, i7, i8, i9, not_mem_setAdd _ _ _ i10 hval, i11, i12, i13,
        i14, i15, i16, i17⟩
    · exact ⟨i1, i2, i3, i4, i5, i6, i7, i8, not_mem_setAdd _ _ _ i9 hval, i10, i11, i12, i13,
        i14, i15, i16, i17⟩
  by_cases h11 : (splitComma line).headD [] = str "GEOIP"
  · rw [classify_GEOIP st line h11] at h
    obtain rfl := Option.some.inj h
    split_ifs with harg
    · exact ⟨i1, i2, i3, i4, i5, i6, i7, i8, i9, i10, i11, i12, i13,
        not_mem_setAdd _ _ _ i14 hval, i15, i16, i17⟩
    · exact ⟨i1, i2, i3, i4, i5, i6, i7, i8, i9, i10, i11, i12,
        not_mem_setAdd _ _ _ i13 hval, i14, i15, i16, i17⟩
  by_cases h12 : (splitComma line).headD [] = str "SRC-IP"
  · rw [classify_SRC_IP st line h12] at h
    obtain rfl := Option.some.inj h
    exact ⟨i1, i2, i3, i4, i5, i6, i7, i8, i9, i10, i11, i12, i13, i14,
      not_mem_setAdd _ _ _ i15 hval, i16, i17⟩
  by_cases h13 : (splitComma line).headD [] = str "SRC-PORT"
  · rw [classify_SRC_PORT st line h13] at h
    obtain rfl := Option.some.inj h
    exact ⟨i1, i2, i3, i4, i5, i6, i7, i8, i9, i10, i11, i12, i13, i14, i15,
      not_mem_setAdd _ _ _ i16 hval, i17⟩
  by_cases h14 : (splitComma line).headD [] = str "DEST-PORT"
  · rw [classify_DEST_PORT st line h14] at h
    obtain rfl := Option.some.inj h
    exact ⟨i1, i2, i3, i4, i5, i6, i7, i8, i9, i10, i11, i12, i13, i14, i15, i16,
      not_mem_setAdd _ _ _ i17 hval⟩
  rw [classify_default st line (by
    simp only [supportedTypes, List.mem_cons, List.not_mem_nil, or_false, not_or]
    exact ⟨h1, h2, h3, h4, h5, h6, h7, h8, h9, h10, h11, h12, h13, h14⟩)] at h
  obtain rfl := Option.some.inj h
  exact ⟨i1, i2, i3, i4, i5, i6, i7, i8, i9, i10, i11, i12, i13, i14, i15, i16, i17⟩

theorem addFromRuleset_preserves_noEmpty (lines : List Str) : ∀ (st st' : RuleState),
    noEmptyInvariant st → (∀ l ∈ lines, goodLine l) →
    addFromRuleset st lines = some st' → noEmptyInvariant st' := by
  induction lines with
  | nil =>
    intro st st' hst _ h
    obtain rfl := Option.some.inj h
    exact hst
  | cons l ls ih =>
    intro st st' hst hgood h
    simp only [addFromRuleset, List.foldlM_cons] at h
    cases hc : classifyLine st l with
    | none => rw [hc] at h; simp at h
    | some st1 =>
      rw [hc] at h
      simp only [Option.bind_eq_bind, Option.some_bind] at h
      exact ih st1 st'
        (classifyLine_preserves_noEmpty st st1 l (hgood l (List.mem_cons_self l ls)) hst hc)
        (fun x hx => hgood x (List.mem_cons_of_mem l hx)) h

/-- C2 counterexample: ingesting the recognized rule line
"DOMAIN-KEYWORD," whose value field is the empty string puts the empty
string into the keyword bucket, so it is not true that no bucket ever
contains an empty string after ingesting classified rule lines. -/
theorem buckets_empty_string_counterexample :
    addFromRuleset initState [str "DOMAIN-KEYWORD,"] =
      some { initState with domainKeywords := [some []] } ∧
    some ([] : Str) ∈
      ({ initState with domainKeywords := [some []] } : RuleState).domainKeywords := by
  decide

/-- C2 (amended): every string-set bucket of the accumulator behaves as
a set, in that adding the same value twice leaves the bucket identical
to adding it once; and after ingesting any sequence of rule lines each
of which carries a present and nonempty value field, no string-set
bucket contains the empty string — a recognized line with an empty
value field, such as "DOMAIN-KEYWORD,", does insert the empty
string. -/
theorem buckets_set_semantics (s : List (Option Str)) (v : Option Str)
    (st st' : RuleState) (lines : List Str) :
    setAdd (setAdd s v) v = setAdd s v ∧
    (noEmptyInvariant st → (∀ l ∈ lines, goodLine l) →
      addFromRuleset st lines = some st' → noEmptyInvariant st') :=
  ⟨setAdd_idem s v,
    fun hst hgood h => addFromRuleset_preserves_noEmpty lines st st' hst hgood h⟩

/-- C2 witness: the well-formed line "DOMAIN-KEYWORD,foo" preserves the
empty-string-free invariant from the fresh accumulator. -/
theorem buckets_set_semantics_witness :
    noEmptyInvariant { initState with domainKeywords := [some (str "foo")] } :=
  (buckets_set_semantics [] none initState
      { initState with domainKeywords := [some (str "foo")] }
      [str "DOMAIN-KEYWORD,foo"]).2
    (by simp [noEmptyInvariant, initState])
    (by
      intro l hl
      simp only [List.mem_singleton] at hl
      subst hl
      exact ⟨by decide, by decide⟩)
    (by decide)

/-! ## CIDR normalization and the bulk adders -/

theorem bulkAddCIDR4_mono (cidrs : List Str) : ∀ (st : RuleState) (x : Option Str),
    x ∈ st.ipcidr → x ∈ (bulkAddCIDR4 st cidrs).ipcidr := by
  induction cidrs with
  | nil => intro st x h; exact h
  | cons c cs ih => intro st x h; exact ih _ x (mem_setAdd_of_mem _ _ _ h)

theorem bulkAddCIDR4_mem (cidrs : List Str) : ∀ (st : RuleState) (c : Str), c ∈ cidrs →
    some (ipToCidr c 4) ∈ (bulkAddCIDR4 st cidrs).ipcidr := by
  induction cidrs with
  | nil => intro st c h; exact absurd h (List.not_mem_nil c)
  | cons d ds ih =>
    intro st c h
    rcases List.mem_cons.mp h with rfl | h'
    · exact bulkAddCIDR4_mono ds _ _ (mem_setAdd_self _ _)
    · exact ih _ c h'

theorem bulkAddCIDR4NoResolve_mono (cidrs : List Str) : ∀ (st : RuleState) (x : Option Str),
    x ∈ st.ipcidrNoResolve → x ∈ (bulkAddCIDR4NoResolve st cidrs).ipcidrNoResolve := by
  induction cidrs with
  | nil => intro st x h; exact h
  | cons c cs ih => intro st x h; exact ih _ x (mem_setAdd_of_mem _ _ _ h)

theorem bulkAddCIDR4NoResolve_mem (cidrs : List Str) : ∀ (st : RuleState) (c : Str), c ∈ cidrs →
    some (ipToCidr c 4) ∈ (bulkAddCIDR4NoResolve st cidrs).ipcidrNoResolve := by
  induction cidrs with
  | nil => intro st c h; exact absurd h (List.not_mem_nil c)
  | cons d ds ih =>
    intro st c h
    rcases List.mem_cons.mp h with rfl | h'
    · exact bulkAddCIDR4NoResolve_mono ds _ _ (mem_setAdd_self _ _)
    · exact ih _ c h'

theorem bulkAddCIDR6_mono (cidrs : List Str) : ∀ (st : RuleState) (x : Option Str),
    x ∈ st.ipcidr6 → x ∈ (bulkAddCIDR6 st cidrs).ipcidr6 := by
  induction cidrs with
  | nil => intro st x h; exact h
  | cons c cs ih => intro st x h; exact ih _ x (mem_setAdd_of_mem _ _ _ h)

theorem bulkAddCIDR6_mem (cidrs : List Str) : ∀ (st : RuleState) (c : Str), c ∈ cidrs →
    some (ipToCidr c 6) ∈ (bulkAddCIDR6 st cidrs).ipcidr6 := by
  induction cidrs with
  | nil => intro st c h; exact absurd h (List.not_mem_nil c)
  | cons d ds ih =>
    intro st c h
    rcases List.mem_cons.mp h with rfl | h'
    · exact bulkAddCIDR6_mono ds _ _ (mem_setAdd_self _ _)
    · exact ih _ c h'

theorem bulkAddCIDR6NoResolve_mono (cidrs : List Str) : ∀ (st : RuleState) (x : Option Str),
    x ∈ st.ipcidr6NoResolve → x ∈ (bulkAddCIDR6NoResolve st cidrs).ipcidr6NoResolve := by
  induction cidrs with
  | nil => intro st x h; exact h
  | cons c cs ih => intro st x h; exact ih _ x (mem_setAdd_of_mem _ _ _ h)

theorem bulkAddCIDR6NoResolve_mem (cidrs : List Str) : ∀ (st : RuleState) (c : Str), c ∈ cidrs →
    some (ipToCidr c 6) ∈ (bulkAddCIDR6NoResolve st cidrs).ipcidr6NoResolve := by
  induction cidrs with
  | nil => intro st c h; exact absurd h (List.not_mem_nil c)
  | cons d ds ih =>
    intro st c h
    rcases List.mem_cons.mp h with rfl | h'
    · exact bulkAddCIDR6NoResolve_mono ds _ _ (mem_setAdd_self _ _)
    · exact ih _ c h'

/-- C8: ipToCidr returns its input unchanged when the input already
contains a slash, and otherwise appends the string "/32" for version 4
and "/128" for version 6; each of the four bulk CIDR adders inserts the
normalized form of every entry it is given into its target bucket. -/
theorem ipToCidr_normalization (ip : Str) (st : RuleState) (cidrs : List Str) :
    ('/' ∈ ip → ipToCidr ip 4 = ip ∧ ipToCidr ip 6 = ip) ∧
    ('/' ∉ ip → ipToCidr ip 4 = ip ++ str "/32" ∧ ipToCidr ip 6 = ip ++ str "/128") ∧
    (∀ c ∈ cidrs, some (ipToCidr c 4) ∈ (bulkAddCIDR4 st cidrs).ipcidr) ∧
    (∀ c ∈ cidrs, some (ipToCidr c 4) ∈ (bulkAddCIDR4NoResolve st cidrs).ipcidrNoResolve) ∧
    (∀ c ∈ cidrs, some (ipToCidr c 6) ∈ (bulkAddCIDR6 st cidrs).ipcidr6) ∧
    (∀ c ∈ cidrs, some (ipToCidr c 6) ∈ (bulkAddCIDR6NoResolve st cidrs).ipcidr6NoResolve) := by
  refine ⟨?_, ?_, fun c hc => bulkAddCIDR4_mem cidrs st c hc,
    fun c hc => bulkAddCIDR4NoResolve_mem cidrs st c hc,
    fun c hc => bulkAddCIDR6_mem cidrs st c hc,
    fun c hc => bulkAddCIDR6NoResolve_mem cidrs st c hc⟩
  · intro h
    exact ⟨by simp [ipToCidr, h], by simp [ipToCidr, h]⟩
  · intro h
    constructor <;> simp +decide [ipToCidr, h]

/-- C8 witness: the three normalization examples of the specification,
one with an existing prefix length and two bare addresses. -/
theorem ipToCidr_normalization_witness :
    ipToCidr (str "1.2.3.4") 4 = str "1.2.3.4" ++ str "/32" ∧
    ipToCidr (str "1.2.3.0/24") 4 = str "1.2.3.0/24" ∧
    ipToCidr (str "::1") 6 = str "::1" ++ str "/128" :=
  ⟨((ipToCidr_normalization (str "1.2.3.4") initState []).2.1 (by decide)).1,
    ((ipToCidr_normalization (str "1.2.3.0/24") initState []).1 (by decide)).1,
    ((ipToCidr_normalization (str "::1") initState []).2.1 (by decide)).2⟩

/-! ## Lifecycle guards and memoization of the preprocessed view -/

/-- C6 (amended): when the preprocessed view has not yet been computed,
reading it while the ingestion promise chain is still pending fails at
once with the message "You should call done() before calling this
method"; a write path with a missing or empty title fails at once with
"Missing title", and one with a title but no description fails at once
with "Missing description". -/
theorem precondition_guards (st : MetaState) (f : Unit → Str) :
    (st.preprocessed = none → st.pendingPromise = true →
      runPreprocess st f =
        Except.error (str "You should call done() before calling this method")) ∧
    (falsyTitle st.title = true → writeCheck st = Except.error (str "Missing title")) ∧
    (falsyTitle st.title = false → st.description = none →
      writeCheck st = Except.error (str "Missing description")) := by
  refine ⟨?_, ?_, ?_⟩
  · intro h1 h2
    simp [runPreprocess, h1, h2]
  · intro h
    simp [writeCheck, h]
  · intro h1 h2
    simp [writeCheck, h1, h2]

/-- C6 witness: a fresh pending instance with no cached view fails its
read with the done() message. -/
theorem precondition_guards_witness :
    runPreprocess ⟨true, none, none, none⟩ (fun _ => []) =
      Except.error (str "You should call done() before calling this method") :=
  (precondition_guards ⟨true, none, none, none⟩ (fun _ => [])).1 rfl rfl

/-- C6 counterexample: when a previously computed view is cached, a
read while the ingestion promise chain is pending succeeds and returns
the cache instead of raising an error, so the claim does not hold for
every read issued while ingestion is pending. -/
theorem precondition_guards_counterexample :
    (⟨true, none, none, some (str "cached")⟩ : MetaState).pendingPromise = true ∧
    runPreprocess ⟨true, none, none, some (str "cached")⟩ (fun _ => []) =
      Except.ok (⟨true, none, none, some (str "cached")⟩, 0) := by
  exact ⟨rfl, rfl⟩

/-- C7: the preprocessed view is computed at most once per instance:
with no cached view and no pending ingestion, a read invokes preprocess
exactly once and caches its result; any read that finds a cached value
returns it without invoking preprocess; in particular the read right
after a first read performs zero further invocations and returns the
same state. -/
theorem preprocess_memoized (st : MetaState) (f : Unit → Str) :
    (st.preprocessed = none → st.pendingPromise = false →
      runPreprocess st f = Except.ok ({ st with preprocessed := some (f ()) }, 1)) ∧
    (∀ v, st.preprocessed = some v → runPreprocess st f = Except.ok (st, 0)) ∧
    (st.preprocessed = none → st.pendingPromise = false →
      runPreprocess { st with preprocessed := some (f ()) } f =
        Except.ok ({ st with preprocessed := some (f ()) }, 0)) := by
  refine ⟨?_, ?_, ?_⟩
  · intro h1 h2
    simp [runPreprocess, h1, h2]
  · intro v hv
    simp [runPreprocess, hv]
  · intro _ _
    simp [runPreprocess]

/-- C7 witness: a fresh instance with cleared ingestion computes the
view on first read with exactly one invocation. -/
theorem preprocess_memoized_witness :
    runPreprocess ⟨false, none, none, none⟩ (fun _ => str "p") =
      Except.ok (⟨false, none, none, some (str "p")⟩, 1) :=
  (preprocess_memoized ⟨false, none, none, none⟩ (fun _ => str "p")).1 rfl rfl
